import Mathlib

/-!
Verification development for the role/membership authorization model and the
impact-aggregation engine of the accounting-services backend.

Conventions of the embedding:
* TypeScript `null`/`undefined` arguments become `Option` (`none`).
* JavaScript numbers are modelled as exact rationals (`ℚ`); summation is the
  same fold the code performs, in exact arithmetic.
* Fallible code returns `Except`.
* Mongo `ObjectId`s are modelled by their hex strings; `a.equals(b)` is
  string equality of the ids.
-/

namespace AccountingServices

/-- Organization-level roles, from
`libs/utils/src/lib/datamodels/organizationAccount/organization-role.ts`
(`enum OrganizationRole`): guest, user, admin, superAdmin. -/
inductive OrganizationRole
  | GUEST
  | USER
  | ADMIN
  | SUPER_ADMIN
deriving DecidableEq, Repr, Fintype

/-- Rank table `ORGANIZATION_ROLE_ORDER` from `organization-role.ts`:
GUEST ↦ 0, USER ↦ 1, ADMIN ↦ 2, SUPER_ADMIN ↦ 3. -/
def ORGANIZATION_ROLE_ORDER : OrganizationRole → Int
  | .GUEST => 0
  | .USER => 1
  | .ADMIN => 2
  | .SUPER_ADMIN => 3

/-- `isRoleAtLeast(role, wantRole)` from `organization-role.ts`.
`role ? ORGANIZATION_ROLE_ORDER[role] : -1` — every enum value is a non-empty
string, hence truthy, so the conditional distinguishes exactly
present (`some`) from `null`/`undefined` (`none`). Likewise the missing
`wantRole` index defaults to 99. -/
def isRoleAtLeast (role wantRole : Option OrganizationRole) : Bool :=
  let haveRoleIdx : Int := match role with
    | some r => ORGANIZATION_ROLE_ORDER r
    | none => -1
  let wantRoleIdx : Int := match wantRole with
    | some r => ORGANIZATION_ROLE_ORDER r
    | none => 99
  decide (haveRoleIdx ≥ wantRoleIdx)

/-- `isRoleAtMost(role, atMost)` from `organization-role.ts`:
defined as `isRoleAtLeast(atMost, role)`. -/
def isRoleAtMost (role atMost : Option OrganizationRole) : Bool :=
  isRoleAtLeast atMost role

/-- C2: `isRoleAtLeast(have, want)` is true iff both arguments are defined
roles and the rank of `have` is at least the rank of `want`; a `none` on
either side makes the result `false`. Totality (the claim's "never throws")
is inherent: the embedding is a total Lean function over all ten inputs. -/
theorem isRoleAtLeast_rank_spec :
    ∀ h w : Option OrganizationRole,
      (isRoleAtLeast h w = true ↔
        ∃ hr wr, h = some hr ∧ w = some wr ∧
          ORGANIZATION_ROLE_ORDER hr ≥ ORGANIZATION_ROLE_ORDER wr) ∧
      isRoleAtLeast none w = false ∧
      isRoleAtLeast h none = false := by
  decide

/-- C3 counterexample: the claim asserts `isRoleAtLeast(r, undefined)` is
true for every defined role `r` ("requiring nothing is always satisfied");
the code compares the rank of `r` (at most 3) against the default
want-rank 99, so the result is `false`, already at `r = ADMIN`. -/
theorem isRoleAtLeast_some_none_counterexample :
    isRoleAtLeast (some .ADMIN) none = false := by
  decide

/-- C3 amended: `isRoleAtLeast(undefined, r)` is false for every defined
role `r`, and `isRoleAtLeast(r, undefined)` is likewise false for every
defined role `r`: an absent required role has rank 99, above all defined
ranks, so the two directions agree — both fail (no asymmetry). -/
theorem isRoleAtLeast_undefined_spec :
    ∀ r : OrganizationRole,
      isRoleAtLeast none (some r) = false ∧
      isRoleAtLeast (some r) none = false := by
  decide

/-- Site-level user roles. Modelled from the spec: the enumeration file
(`libs/utils/src/lib/datamodels/user/user-roles.ts`) is not among the
provided sources; the spec speaks of "the top site-level admin role", and the
sources reference exactly the members `UserRoles.ADMIN` and `UserRoles.USER`. -/
inductive UserRoles
  | USER
  | ADMIN
deriving DecidableEq, Repr

/-- A member entry of `OrganizationAccountDocument.members`, with
`user` populated: the member's user `_id` (hex string), the populated
user's `email`, and the member's `role` in the organization. -/
structure OrgMember where
  userId : String
  email : String
  role : OrganizationRole
deriving DecidableEq, Repr

/-- An `OrganizationAccountDocument`, restricted to the `members` list the
checked code reads. A missing (`undefined`) members array behaves exactly
like the empty list in both `find` call sites, so it is modelled as `[]`. -/
structure OrganizationAccountDoc where
  members : List OrgMember
deriving DecidableEq, Repr

/-- A `UserDocument`, restricted to the fields the invite check reads:
`_id` and the site-level `role`. -/
structure UserDoc where
  userId : String
  role : UserRoles
deriving DecidableEq, Repr

/-- The `userData` argument of `inviteUserToOrganization` (part_018):
`{ name, email, locale, role }`. `role` is typed `OrganizationRole`; every
enum value is a non-empty (truthy) string, so the runtime `!role` guard never
fires for a value of this type and only `!name || !email` remain. -/
structure InviteUserData where
  name : String
  email : String
  locale : String
  role : OrganizationRole
deriving DecidableEq, Repr

/-- The exceptions the synchronous prefix of `inviteUserToOrganization` can
throw: `BadRequestException` or `ForbiddenException`. -/
inductive InviteError
  | badRequest
  | forbidden
deriving DecidableEq, Repr

/-- The synchronous validation prefix of `inviteUserToOrganization`
(part_018, lines 415 ff.), up to the already-member check — everything after
it only touches the database. In order:
1. `if (!name || !email || !role) throw BadRequestException` (with `!role`
   never firing, see `InviteUserData`);
2. if the inviter is not a site admin (`invitedByUser.role !== UserRoles.ADMIN`),
   look up `inviterRoleInOrg` as the role of the first member whose
   `user._id` equals `invitedByUser._id` (absent if none), and
   `throw ForbiddenException` when `!isRoleAtMost(role, inviterRoleInOrg)`;
   the source's nested `if` pair is written as one `&&` condition;
3. `throw BadRequestException` if some member's populated email equals the
   invitee's email. -/
def inviteUserToOrganizationCheck (userData : InviteUserData)
    (organization : OrganizationAccountDoc) (invitedByUser : UserDoc) :
    Except InviteError Unit :=
  if userData.name == "" || userData.email == "" then
    .error .badRequest
  else if invitedByUser.role != UserRoles.ADMIN
      && !(isRoleAtMost (some userData.role)
            ((organization.members.find?
                (fun m => m.userId == invitedByUser.userId)).map
              (fun m => m.role))) then
    .error .forbidden
  else if (organization.members.find?
      (fun m => m.email == userData.email)).isSome then
    .error .badRequest
  else
    .ok ()

/-- C1: for a well-formed invitation (non-empty name and email), the invite
check throws `ForbiddenException` exactly when the inviter is not a site
admin and `isRoleAtMost(requestedRole, inviterRoleInOrg)` fails, where
`inviterRoleInOrg` is the role of the inviter's membership entry (absent if
the inviter is not a member). In particular a site admin never triggers the
escalation rejection, whatever role is requested. -/
theorem inviteUserToOrganization_escalation
    (userData : InviteUserData) (org : OrganizationAccountDoc)
    (inviter : UserDoc)
    (hname : userData.name ≠ "") (hemail : userData.email ≠ "") :
    inviteUserToOrganizationCheck userData org inviter = .error .forbidden ↔
      (inviter.role ≠ UserRoles.ADMIN ∧
        isRoleAtMost (some userData.role)
          ((org.members.find? (fun m => m.userId == inviter.userId)).map
            (fun m => m.role)) = false) := by
  have h1 : (userData.name == "" || userData.email == "") = false := by
    simp [hname, hemail]
  by_cases hrole : inviter.role = UserRoles.ADMIN <;>
    by_cases hmost : isRoleAtMost (some userData.role)
        ((org.members.find? (fun m => m.userId == inviter.userId)).map
          (fun m => m.role)) = true <;>
    by_cases hmem : (org.members.find?
        (fun m => m.email == userData.email)).isSome = true <;>
    simp_all [inviteUserToOrganizationCheck] <;>
    (intro hcontra; split at hcontra <;> simp_all)

/-- Witness for C1 at concrete inputs: a USER member inviting at role ADMIN
is rejected with `ForbiddenException` (non-admin inviter, escalation check
fails). -/
theorem inviteUserToOrganization_escalation_witness :
    inviteUserToOrganizationCheck
        ⟨"New User", "new@example.com", "en", .ADMIN⟩
        ⟨[⟨"u1", "inviter@example.com", .USER⟩]⟩
        ⟨"u1", .USER⟩ = .error .forbidden := by
  rw [inviteUserToOrganization_escalation
    ⟨"New User", "new@example.com", "en", .ADMIN⟩
    ⟨[⟨"u1", "inviter@example.com", .USER⟩]⟩
    ⟨"u1", .USER⟩ (by decide) (by decide)]
  decide

/-- The error thrown by `OrgValidator` checks: `ForbiddenException`. -/
inductive AuthError
  | forbidden
deriving DecidableEq, Repr

/-- The `AuthenticatedUser` from the request, restricted to
`userDoc._id`, the only field `checkMember` reads. -/
structure AuthenticatedUser where
  userDocId : String
deriving DecidableEq, Repr

/-- The `OrgValidator` class (`libs/utils/src/lib/auth/org-validator.ts`):
wraps the `OrganizationAccount` passed to the constructor. -/
structure OrgValidator where
  org : OrganizationAccountDoc
deriving DecidableEq, Repr

/-- `OrgValidator.checkMember(user, minRole)` (org-validator.ts lines 64-70):
look up `this.org.members?.find((m) => m.user._id.equals(user.userDoc._id))`;
throw `ForbiddenException` when `!isRoleAtLeast(membership?.role, minRole)`;
otherwise return `this` for chaining. -/
def OrgValidator.checkMember (v : OrgValidator) (user : AuthenticatedUser)
    (minRole : OrganizationRole) : Except AuthError OrgValidator :=
  let membership := v.org.members.find? (fun m => m.userId == user.userDocId)
  if !(isRoleAtLeast (membership.map (fun m => m.role)) (some minRole)) then
    .error .forbidden
  else
    .ok v

/-- C7: `checkMember` throws `ForbiddenException` whenever no membership
entry matches the user, for every required role; when a matching entry
exists (the first match), it throws exactly when
`isRoleAtLeast(membership.role, minRole)` is false, and returns the
validator instance itself otherwise. -/
theorem OrgValidator.checkMember_spec (v : OrgValidator)
    (user : AuthenticatedUser) (minRole : OrganizationRole) :
    (v.org.members.find? (fun m => m.userId == user.userDocId) = none →
      v.checkMember user minRole = .error .forbidden) ∧
    (∀ mem,
      v.org.members.find? (fun m => m.userId == user.userDocId) = some mem →
        (v.checkMember user minRole = .error .forbidden ↔
          isRoleAtLeast (some mem.role) (some minRole) = false) ∧
        (isRoleAtLeast (some mem.role) (some minRole) = true →
          v.checkMember user minRole = .ok v)) := by
  constructor
  · intro hfind
    have hnone : isRoleAtLeast none (some minRole) = false := by
      cases minRole <;> decide
    simp [OrgValidator.checkMember, hfind, hnone]
  · intro mem hfind
    constructor
    · by_cases h : isRoleAtLeast (some mem.role) (some minRole) = false
      · simp [OrgValidator.checkMember, hfind, h]
      · simp only [Bool.not_eq_false] at h
        simp [OrgValidator.checkMember, hfind, h]
    · intro h
      simp [OrgValidator.checkMember, hfind, h]

/-- Witness for C7 at concrete inputs: in an organization whose only member
is a USER, `checkMember` rejects an unknown user at minimum role GUEST,
rejects the member at minimum role ADMIN, and passes the member (returning
the validator) at minimum role USER. -/
theorem OrgValidator.checkMember_spec_witness :
    OrgValidator.checkMember ⟨⟨[⟨"u1", "a@b.c", .USER⟩]⟩⟩ ⟨"ghost"⟩ .GUEST
      = .error .forbidden ∧
    OrgValidator.checkMember ⟨⟨[⟨"u1", "a@b.c", .USER⟩]⟩⟩ ⟨"u1"⟩ .ADMIN
      = .error .forbidden ∧
    OrgValidator.checkMember ⟨⟨[⟨"u1", "a@b.c", .USER⟩]⟩⟩ ⟨"u1"⟩ .USER
      = .ok ⟨⟨[⟨"u1", "a@b.c", .USER⟩]⟩⟩ := by
  refine ⟨?_, ?_, ?_⟩
  · exact (OrgValidator.checkMember_spec ⟨⟨[⟨"u1", "a@b.c", .USER⟩]⟩⟩
      ⟨"ghost"⟩ .GUEST).1 (by decide)
  · exact ((OrgValidator.checkMember_spec ⟨⟨[⟨"u1", "a@b.c", .USER⟩]⟩⟩
      ⟨"u1"⟩ .ADMIN).2 ⟨"u1", "a@b.c", .USER⟩ (by decide)).1.mpr (by decide)
  · exact ((OrgValidator.checkMember_spec ⟨⟨[⟨"u1", "a@b.c", .USER⟩]⟩⟩
      ⟨"u1"⟩ .USER).2 ⟨"u1", "a@b.c", .USER⟩ (by decide)).2 (by decide)

/-- A JavaScript value that can reach `isObjectIdsEquals` (part_003):
`null`, `undefined`, a string, a well-formed `ObjectId` (an object carrying
an `equals` method; identified by its hex string), or a malformed identifier
— a non-string value without an `equals` method, carrying its JS truthiness
(e.g. `0` and `NaN` are falsy, a plain object is truthy). -/
inductive JsIdValue
  | nullV
  | undefinedV
  | strV (s : String)
  | objectIdV (hex : String)
  | malformedV (truthy : Bool)
deriving DecidableEq, Repr

/-- A runtime error of the JavaScript evaluation: the `TypeError` raised by
calling a method that the receiver does not have. -/
inductive JsError
  | typeError
deriving DecidableEq, Repr

/-- JS truthiness of a `JsIdValue`: `null`/`undefined` and the empty string
are falsy; an `ObjectId` object is truthy; a malformed value carries its own
truthiness. -/
def jsTruthy : JsIdValue → Bool
  | .nullV => false
  | .undefinedV => false
  | .strV s => s != ""
  | .objectIdV _ => true
  | .malformedV t => t

/-- Whether `typeof v === 'string'`. -/
def isStringVal : JsIdValue → Bool
  | .strV _ => true
  | _ => false

/-- Whether `v.equals` is present (truthy): only well-formed `ObjectId`s
carry the method. Reading the property off a truthy receiver never throws. -/
def hasEqualsMethod : JsIdValue → Bool
  | .objectIdV _ => true
  | _ => false

/-- `ObjectId.prototype.equals` semantics: compares the receiver's hex
string with a string or another `ObjectId`; other arguments compare
unequal. -/
def objectIdEqualsArg (hex : String) : JsIdValue → Bool
  | .strV s => hex == s
  | .objectIdV h2 => hex == h2
  | _ => false

/-- Calling `v.equals(arg)`: a `TypeError` unless `v` actually has the
method. -/
def callEquals (v arg : JsIdValue) : Except JsError Bool :=
  match v with
  | .objectIdV hex => .ok (objectIdEqualsArg hex arg)
  | _ => .error .typeError

/-- `isObjectIdsEquals(value, other)` (part_003 lines 48-66), with the JS
exception behaviour made explicit. The guard
`!value || (typeof value !== 'string' && !value.equals) || !other || (...)`
short-circuits to `false`; otherwise the nested ternary compares two
strings directly, or dispatches to `other.equals(value)` /
`value.equals(other)`. -/
def isObjectIdsEquals (value other : JsIdValue) : Except JsError Bool :=
  if !(jsTruthy value) || (!(isStringVal value) && !(hasEqualsMethod value))
      || !(jsTruthy other) || (!(isStringVal other) && !(hasEqualsMethod other))
  then
    .ok false
  else
    match value, other with
    | .strV s, .strV t => .ok (s == t)
    | .strV _, _ => callEquals other value
    | _, _ => callEquals value other

/-- Whether the value is `null` or `undefined`. -/
def isNullish : JsIdValue → Bool
  | .nullV => true
  | .undefinedV => true
  | _ => false

/-- Whether the value is a malformed identifier in the claim's sense: a
non-string value lacking an `equals` method. -/
def isMalformedId : JsIdValue → Bool
  | .malformedV _ => true
  | _ => false

/-- Every evaluation of `isObjectIdsEquals` produces a boolean result: the
guard rules out every receiver that would make a method call throw. -/
theorem isObjectIdsEquals_total (value other : JsIdValue) :
    ∃ b, isObjectIdsEquals value other = .ok b := by
  unfold isObjectIdsEquals
  split
  · exact ⟨false, rfl⟩
  · rename_i hguard
    cases value <;> cases other <;>
      simp_all [jsTruthy, isStringVal, hasEqualsMethod, callEquals,
        objectIdEqualsArg]

/-- C9: `isObjectIdsEquals` never throws — for every pair of inputs the
evaluation yields `.ok` — and whenever either argument is `null`,
`undefined`, or a malformed identifier, the result is `.ok false` rather
than an error. -/
theorem isObjectIdsEquals_safe (value other : JsIdValue) :
    (isObjectIdsEquals value other).isOk = true ∧
      ((isNullish value || isMalformedId value
          || isNullish other || isMalformedId other) = true →
        isObjectIdsEquals value other = .ok false) := by
  constructor
  · obtain ⟨b, hb⟩ := isObjectIdsEquals_total value other
    rw [hb]
    rfl
  · intro h
    cases value <;> cases other <;>
      simp_all [isObjectIdsEquals, jsTruthy, isStringVal, hasEqualsMethod,
        isNullish, isMalformedId, callEquals]

/-- Witness for C9 at concrete inputs: comparing `null` against a
well-formed `ObjectId`, and a truthy malformed value against a string,
both yield `.ok false`; the never-throws conjunct holds for a pair of
well-formed `ObjectId`s. -/
theorem isObjectIdsEquals_safe_witness :
    isObjectIdsEquals .nullV (.objectIdV "aabb") = .ok false ∧
    isObjectIdsEquals (.malformedV true) (.strV "aabb") = .ok false ∧
    (isObjectIdsEquals (.objectIdV "aabb") (.objectIdV "aabb")).isOk = true := by
  refine ⟨?_, ?_, ?_⟩
  · exact (isObjectIdsEquals_safe .nullV (.objectIdV "aabb")).2 (by decide)
  · exact (isObjectIdsEquals_safe (.malformedV true) (.strV "aabb")).2
      (by decide)
  · exact (isObjectIdsEquals_safe (.objectIdV "aabb") (.objectIdV "aabb")).1

/-- `EmissionValue` from `apps/data-upload/src/starter/impact.model.ts`:
a numeric value with a unit. Numbers are modelled as exact rationals. -/
structure EmissionValue where
  value : ℚ
  unit : String
deriving DecidableEq, Repr, Inhabited

/-- `EmissionsByCategory` from impact.model.ts. -/
structure EmissionsByCategory where
  category : String
  emission : EmissionValue
deriving DecidableEq, Repr, Inhabited

/-- `EmissionsByScope` from impact.model.ts. -/
structure EmissionsByScope where
  scope : String
  emission : EmissionValue
  categoryBreakdown : List EmissionsByCategory
deriving DecidableEq, Repr, Inhabited

/-- `EmissionCalculation` from impact.model.ts. -/
structure EmissionCalculation where
  totalEmissions : EmissionValue
  emissionsByScope : List EmissionsByScope
deriving DecidableEq, Repr

/-- The `Activity` subdocument of `CalculatedImpact` (part_013 schema),
restricted to the two fields the aggregation reads. The schema marks
`ghgScope` required, but the service reads it as `x.activity?.ghgScope ?? …`,
so both fields are modelled as optional, matching the runtime guard. -/
structure Activity where
  category : Option String
  ghgScope : Option String
deriving DecidableEq, Repr

/-- The `Impact` subdocument of `CalculatedImpact`, restricted to `value`.
The schema marks `value` required, but the service reads it as
`i.impacts?.value ?? 0`, so it is modelled as optional, matching the
runtime guard. -/
structure Impact where
  value : Option ℚ
deriving DecidableEq, Repr

/-- A `CalculatedImpact` document (collection `transactionimpacts_unwind`),
restricted to the fields the aggregation reads. -/
structure CalculatedImpact where
  activity : Option Activity
  impacts : Option Impact
deriving DecidableEq, Repr

/-- The constant `CO2KGS = 'co2 kg'` (part_013). -/
def CO2KGS : String := "co2 kg"

/-- The value extraction `(i) => i.impacts?.value ?? 0` used by
`sumEmissions`. -/
def impactValue (i : CalculatedImpact) : ℚ :=
  (i.impacts.bind (fun im => im.value)).getD 0

/-- `sumEmissions(impacts)` (part_013 lines 75-77):
`impacts.map((i) => i.impacts?.value ?? 0).reduce((a, b) => a + b, 0)`. -/
def sumEmissions (impacts : List CalculatedImpact) : ℚ :=
  (impacts.map impactValue).foldl (fun a b => a + b) 0

/-- The grouping key `(x) => x.activity?.ghgScope ?? 'unknown'` used by
`aggregateImpacts`. -/
def scopeKeyOf (x : CalculatedImpact) : String :=
  (x.activity.bind (fun a => a.ghgScope)).getD "unknown"

/-- The grouping key `(x) => x.activity?.category ?? 'unknown'` used by
`getEmissionsByCategory`. -/
def categoryKeyOf (x : CalculatedImpact) : String :=
  (x.activity.bind (fun a => a.category)).getD "unknown"

/-- The distinct keys of a key list, first occurrence first — the key order
of `Object.entries(_.groupBy(...))` (for string keys JS objects iterate in
insertion order; integer-like keys would be iterated first, but no claim
depends on the order of the output entries). -/
def dedupKeysFirst : List String → List String
  | [] => []
  | k :: ks => k :: (dedupKeysFirst ks).filter (fun x => x != k)

/-- `Object.entries(_.groupBy(xs, key))`: one entry per distinct key, each
carrying the input elements with that key in input order. -/
def groupByKey {α : Type} (key : α → String) (xs : List α) :
    List (String × List α) :=
  (dedupKeysFirst (xs.map key)).map
    (fun k => (k, xs.filter (fun x => key x == k)))

/-- `getEmissionsByCategory(impacts)` (part_013 lines 79-88): group by
category key, then map each group to a category entry with the group sum. -/
def getEmissionsByCategory (impacts : List CalculatedImpact) :
    List EmissionsByCategory :=
  (groupByKey categoryKeyOf impacts).map
    (fun p => { category := p.1,
                emission := { unit := CO2KGS, value := sumEmissions p.2 } })

/-- `aggregateImpacts(calculatedImpacts)` (part_013 lines 90-117): group by
scope key; map each group to a scope entry with the group sum and its
category breakdown; total is the reduce of the scope values over 0. -/
def aggregateImpacts (calculatedImpacts : List CalculatedImpact) :
    EmissionCalculation :=
  let emissionsByScope : List EmissionsByScope :=
    (groupByKey scopeKeyOf calculatedImpacts).map
      (fun p => { scope := p.1,
                  emission := { unit := CO2KGS, value := sumEmissions p.2 },
                  categoryBreakdown := getEmissionsByCategory p.2 })
  { totalEmissions :=
      { value := (emissionsByScope.map (fun e => e.emission.value)).foldl
          (fun a b => a + b) 0,
        unit := CO2KGS },
    emissionsByScope := emissionsByScope }

/-- A data source as returned by the status lookup, restricted to the
`status` string the completion check reads. -/
structure DataSource where
  status : String
deriving DecidableEq, Repr

/-- A Mongo ObjectId, identified by its hex string. -/
abbrev ObjectId := String

/-- `isCalculationCompleteForDataSources(authToken, dataSourceIds)`
(part_013 lines 66-73): look up each data source through the
normative-server collaborator (modelled as the function argument) and return
`every` of `status === 'succeeded' || status === 'failed'`. -/
def isCalculationCompleteForDataSources (getDataSource : ObjectId → DataSource)
    (dataSourceIds : List ObjectId) : Bool :=
  (dataSourceIds.map getDataSource).all
    (fun dataSource =>
      dataSource.status == "succeeded" || dataSource.status == "failed")

/-- C5: the completion check is true iff every looked-up status is one of
the two terminal states, and it is vacuously true on the empty id list. -/
theorem isCalculationComplete_spec (getDataSource : ObjectId → DataSource) :
    (∀ ids, isCalculationCompleteForDataSources getDataSource ids = true ↔
      ∀ i ∈ ids, (getDataSource i).status = "succeeded" ∨
        (getDataSource i).status = "failed") ∧
    isCalculationCompleteForDataSources getDataSource [] = true := by
  constructor
  · intro ids
    simp [isCalculationCompleteForDataSources, List.all_eq_true]
  · rfl

/-- Folding addition over a list from an accumulator gives the accumulator
plus the list sum. -/
theorem foldl_add_eq_add_sum (l : List ℚ) (a : ℚ) :
    l.foldl (fun x y => x + y) a = a + l.sum := by
  induction l generalizing a with
  | nil => simp
  | cons x xs ih => simp only [List.foldl_cons, List.sum_cons, ih]; ring

/-- `sumEmissions` is the sum of the extracted values. -/
theorem sumEmissions_eq_sum_map (l : List CalculatedImpact) :
    sumEmissions l = (l.map impactValue).sum := by
  unfold sumEmissions
  rw [foldl_add_eq_add_sum, zero_add]

/-- `sumEmissions` on a cons. -/
theorem sumEmissions_cons (a : CalculatedImpact) (l : List CalculatedImpact) :
    sumEmissions (a :: l) = impactValue a + sumEmissions l := by
  simp [sumEmissions_eq_sum_map]

/-- Summing `f` over two disjoint filters of the same list adds up to the
sum over the union filter. -/
theorem sum_map_filter_disjoint {α : Type} (f : α → ℚ) (p q : α → Bool)
    (xs : List α) (hdisj : ∀ x, p x = true → q x = false) :
    ((xs.filter p).map f).sum + ((xs.filter q).map f).sum
      = ((xs.filter (fun x => p x || q x)).map f).sum := by
  induction xs with
  | nil => simp
  | cons x xs ih =>
    by_cases hp : p x = true
    · have hq := hdisj x hp
      simp only [List.filter_cons, hp, hq, Bool.true_or, if_true,
        Bool.false_eq_true, if_false, List.map_cons, List.sum_cons]
      rw [← ih]
      ring
    · have hp' : p x = false := by
        cases hpx : p x
        · rfl
        · exact absurd hpx hp
      by_cases hq : q x = true
      · simp only [List.filter_cons, hp', hq, Bool.false_or, if_true,
          Bool.false_eq_true, if_false, List.map_cons, List.sum_cons]
        rw [← ih]
        ring
      · have hq' : q x = false := by
          cases hqx : q x
          · rfl
          · exact absurd hqx hq
        simp only [List.filter_cons, hp', hq', Bool.false_or,
          Bool.false_eq_true, if_false]
        exact ih

/-- Summing the per-key filtered sums over a duplicate-free key list equals
the sum over the elements whose key belongs to the list. -/
theorem sum_over_key_list {α : Type} (f : α → ℚ) (key : α → String)
    (xs : List α) :
    ∀ ks : List String, ks.Nodup →
      (ks.map (fun k => ((xs.filter (fun x => key x == k)).map f).sum)).sum
        = ((xs.filter (fun x => ks.contains (key x))).map f).sum := by
  intro ks
  induction ks with
  | nil => intro _; simp
  | cons k ks ih =>
    intro hnd
    have hk : k ∉ ks := (List.nodup_cons.mp hnd).1
    have hnd' : ks.Nodup := (List.nodup_cons.mp hnd).2
    simp only [List.map_cons, List.sum_cons, ih hnd']
    rw [sum_map_filter_disjoint f (fun x => key x == k)
      (fun x => ks.contains (key x)) xs]
    · apply congrArg
      apply congrArg
      apply List.filter_congr
      intro x _
      simp only [List.contains_cons]
    · intro x hx
      have hxk : key x = k := by simpa using hx
      cases hcont : ks.contains (key x)
      · rfl
      · exfalso
        apply hk
        rw [← hxk]
        simpa using hcont

/-- Membership in `dedupKeysFirst` is membership in the original list. -/
theorem mem_dedupKeysFirst (s : String) :
    ∀ l : List String, s ∈ dedupKeysFirst l ↔ s ∈ l := by
  intro l
  induction l with
  | nil => simp [dedupKeysFirst]
  | cons k ks ih =>
    simp only [dedupKeysFirst, List.mem_cons, List.mem_filter, ih,
      bne_iff_ne]
    by_cases h : s = k
    · simp [h]
    · simp [h]

/-- `dedupKeysFirst` yields duplicate-free keys. -/
theorem nodup_dedupKeysFirst : ∀ l : List String, (dedupKeysFirst l).Nodup := by
  intro l
  induction l with
  | nil => simp [dedupKeysFirst]
  | cons k ks ih =>
    refine List.nodup_cons.mpr ⟨?_, ih.filter _⟩
    intro hmem
    have h := (List.mem_filter.mp hmem).2
    simp at h

/-- The groups of `groupByKey` partition the input: summing `f` over every
group gives the sum of `f` over the whole input list. -/
theorem sum_groupByKey {α : Type} (f : α → ℚ) (key : α → String)
    (xs : List α) :
    ((groupByKey key xs).map (fun p => ((p.2.map f).sum))).sum
      = (xs.map f).sum := by
  unfold groupByKey
  rw [List.map_map]
  have hcomp :
      ((fun p : String × List α => ((p.2.map f).sum)) ∘
        (fun k => (k, xs.filter (fun x => key x == k))))
      = fun k => ((xs.filter (fun x => key x == k)).map f).sum := rfl
  rw [hcomp]
  rw [sum_over_key_list f key xs (dedupKeysFirst (xs.map key))
    (nodup_dedupKeysFirst _)]
  apply congrArg
  apply congrArg
  apply List.filter_eq_self.mpr
  intro x hx
  have hmem : key x ∈ dedupKeysFirst (xs.map key) :=
    (mem_dedupKeysFirst _ _).mpr (List.mem_map_of_mem key hx)
  simpa using hmem

/-- The grand total of `aggregateImpacts` collapses to the plain sum of the
extracted record values. -/
theorem aggregateImpacts_total_eq (xs : List CalculatedImpact) :
    (aggregateImpacts xs).totalEmissions.value = (xs.map impactValue).sum := by
  simp only [aggregateImpacts]
  rw [foldl_add_eq_add_sum, zero_add, List.map_map]
  have hcomp :
      ((fun e : EmissionsByScope => e.emission.value) ∘
        (fun p : String × List CalculatedImpact =>
          ({ scope := p.1,
             emission := { unit := CO2KGS, value := sumEmissions p.2 },
             categoryBreakdown := getEmissionsByCategory p.2 } :
            EmissionsByScope)))
      = fun p : String × List CalculatedImpact => sumEmissions p.2 := rfl
  rw [hcomp]
  have hpt :
      (fun p : String × List CalculatedImpact => sumEmissions p.2)
        = fun p : String × List CalculatedImpact =>
            ((p.2.map impactValue).sum) :=
    funext (fun p => sumEmissions_eq_sum_map p.2)
  rw [hpt]
  exact sum_groupByKey impactValue scopeKeyOf xs

/-- C4: in every `aggregateImpacts` output, each scope entry's value is the
sum of its category-breakdown values, and the total is the sum of the scope
values. -/
theorem aggregateImpacts_decomposition (xs : List CalculatedImpact) :
    (∀ s ∈ (aggregateImpacts xs).emissionsByScope,
      s.emission.value
        = (s.categoryBreakdown.map (fun c => c.emission.value)).sum) ∧
    (aggregateImpacts xs).totalEmissions.value
      = ((aggregateImpacts xs).emissionsByScope.map
          (fun s => s.emission.value)).sum := by
  constructor
  · intro s hs
    simp only [aggregateImpacts, List.mem_map] at hs
    obtain ⟨p, hp, rfl⟩ := hs
    simp only [getEmissionsByCategory, List.map_map]
    have hcomp :
        ((fun c : EmissionsByCategory => c.emission.value) ∘
          (fun q : String × List CalculatedImpact =>
            ({ category := q.1,
               emission := { unit := CO2KGS, value := sumEmissions q.2 } } :
              EmissionsByCategory)))
        = fun q : String × List CalculatedImpact => sumEmissions q.2 := rfl
    rw [hcomp]
    have hpt :
        (fun q : String × List CalculatedImpact => sumEmissions q.2)
          = fun q : String × List CalculatedImpact =>
              ((q.2.map impactValue).sum) :=
      funext (fun q => sumEmissions_eq_sum_map q.2)
    rw [hpt, sum_groupByKey impactValue categoryKeyOf p.2]
    exact sumEmissions_eq_sum_map p.2
  · simp only [aggregateImpacts]
    rw [foldl_add_eq_add_sum, zero_add]

/-- Witness records for the aggregation claims, the spec's example scenario:
Scope 1 / c1 / 10, Scope 1 / c2 / 20, Scope 2 / c3 / 5. -/
def demoRecords : List CalculatedImpact :=
  [⟨some ⟨some "c1", some "Scope 1"⟩, some ⟨some 10⟩⟩,
   ⟨some ⟨some "c2", some "Scope 1"⟩, some ⟨some 20⟩⟩,
   ⟨some ⟨some "c3", some "Scope 2"⟩, some ⟨some 5⟩⟩]

/-- The first scope entry of the aggregated example scenario. -/
def demoFirstScope : EmissionsByScope :=
  (aggregateImpacts demoRecords).emissionsByScope.getD 0 default

/-- The first element (under a default) of a non-empty list is a member. -/
theorem getD_zero_mem {α : Type} [Inhabited α] (l : List α) (h : l ≠ []) :
    l.getD 0 default ∈ l := by
  cases l with
  | nil => exact absurd rfl h
  | cons a t => simp [List.getD]

/-- Witness for C4 on the spec's example scenario: the first scope entry's
value equals the sum of its category breakdown, and the total equals the sum
of the scope values. -/
theorem aggregateImpacts_decomposition_witness :
    demoFirstScope.emission.value
      = (demoFirstScope.categoryBreakdown.map
          (fun c => c.emission.value)).sum ∧
    (aggregateImpacts demoRecords).totalEmissions.value
      = ((aggregateImpacts demoRecords).emissionsByScope.map
          (fun s => s.emission.value)).sum :=
  ⟨(aggregateImpacts_decomposition demoRecords).1 demoFirstScope
      (getD_zero_mem _ (by decide)),
   (aggregateImpacts_decomposition demoRecords).2⟩

/-- C6: the total emissions value of `aggregateImpacts` is invariant under
any permutation of the input records (summation modelled in exact
arithmetic). -/
theorem aggregateImpacts_perm_total (xs ys : List CalculatedImpact)
    (h : xs.Perm ys) :
    (aggregateImpacts ys).totalEmissions.value
      = (aggregateImpacts xs).totalEmissions.value := by
  rw [aggregateImpacts_total_eq, aggregateImpacts_total_eq]
  exact ((h.map impactValue).sum_eq).symm

/-- A two-record input for the C6 witness. -/
def demoPair : List CalculatedImpact :=
  [⟨some ⟨some "c1", some "Scope 1"⟩, some ⟨some 10⟩⟩,
   ⟨some ⟨some "c2", some "Scope 1"⟩, some ⟨some 20⟩⟩]

/-- The same two records in the opposite order. -/
def demoPairSwapped : List CalculatedImpact :=
  [⟨some ⟨some "c2", some "Scope 1"⟩, some ⟨some 20⟩⟩,
   ⟨some ⟨some "c1", some "Scope 1"⟩, some ⟨some 10⟩⟩]

/-- Witness for C6: swapping the two records leaves the total unchanged. -/
theorem aggregateImpacts_perm_total_witness :
    (aggregateImpacts demoPairSwapped).totalEmissions.value
      = (aggregateImpacts demoPair).totalEmissions.value :=
  aggregateImpacts_perm_total demoPair demoPairSwapped
    (List.Perm.swap _ _ _)

/-- `groupByKey` on a cons: the first group is keyed by the head element's
key and collects the head followed by the matching tail elements; the other
groups are keyed by the remaining distinct keys. -/
theorem groupByKey_cons {α : Type} (key : α → String) (a : α) (xs : List α) :
    groupByKey key (a :: xs)
      = (key a, a :: xs.filter (fun x => key x == key a))
        :: ((dedupKeysFirst (xs.map key)).filter (fun k => k != key a)).map
            (fun k => (k, (a :: xs).filter (fun x => key x == k))) := by
  unfold groupByKey
  simp only [List.map_cons, dedupKeysFirst]
  congr 1
  simp [List.filter_cons]

/-- C10: a record `r` whose `impacts` field or `impacts.value` is absent
contributes exactly 0: prepending it to any input leaves the total
unchanged, yet it still creates (or joins) the scope bucket of its scope key
— the first output entry — whose value is the sum over the *other* records
of that scope, and inside it the category bucket of its category key, whose
value is likewise the sum over the other records of that scope and
category. -/
theorem aggregateImpacts_zero_contribution (xs : List CalculatedImpact)
    (r : CalculatedImpact)
    (h : r.impacts = none ∨ ∃ im, r.impacts = some im ∧ im.value = none) :
    (aggregateImpacts (r :: xs)).totalEmissions.value
      = (aggregateImpacts xs).totalEmissions.value ∧
    ∃ e rest, (aggregateImpacts (r :: xs)).emissionsByScope = e :: rest ∧
      e.scope = scopeKeyOf r ∧
      e.emission.value
        = sumEmissions (xs.filter (fun x => scopeKeyOf x == scopeKeyOf r)) ∧
      ∃ c crest, e.categoryBreakdown = c :: crest ∧
        c.category = categoryKeyOf r ∧
        c.emission.value
          = sumEmissions
              ((xs.filter (fun x => scopeKeyOf x == scopeKeyOf r)).filter
                (fun x => categoryKeyOf x == categoryKeyOf r)) := by
  have h0 : impactValue r = 0 := by
    rcases h with h | ⟨im, him, hval⟩
    · simp [impactValue, h]
    · simp [impactValue, him, hval]
  constructor
  · rw [aggregateImpacts_total_eq, aggregateImpacts_total_eq, List.map_cons,
      List.sum_cons, h0, zero_add]
  · have hlist : (aggregateImpacts (r :: xs)).emissionsByScope
        = (⟨scopeKeyOf r,
            ⟨sumEmissions
               (r :: xs.filter (fun x => scopeKeyOf x == scopeKeyOf r)),
             CO2KGS⟩,
            getEmissionsByCategory
              (r :: xs.filter (fun x => scopeKeyOf x == scopeKeyOf r))⟩ :
            EmissionsByScope)
          :: ((dedupKeysFirst (xs.map scopeKeyOf)).filter
                (fun k => k != scopeKeyOf r)).map
              (fun k =>
                (⟨k,
                  ⟨sumEmissions
                     ((r :: xs).filter (fun x => scopeKeyOf x == k)),
                   CO2KGS⟩,
                  getEmissionsByCategory
                    ((r :: xs).filter (fun x => scopeKeyOf x == k))⟩ :
                  EmissionsByScope)) := by
      simp only [aggregateImpacts, groupByKey_cons, List.map_cons,
        List.map_map]
      rfl
    have hclist : getEmissionsByCategory
        (r :: xs.filter (fun x => scopeKeyOf x == scopeKeyOf r))
        = (⟨categoryKeyOf r,
            ⟨sumEmissions
               (r :: (xs.filter
                   (fun x => scopeKeyOf x == scopeKeyOf r)).filter
                 (fun x => categoryKeyOf x == categoryKeyOf r)),
             CO2KGS⟩⟩ : EmissionsByCategory)
          :: ((dedupKeysFirst
                 ((xs.filter
                     (fun x => scopeKeyOf x == scopeKeyOf r)).map
                   categoryKeyOf)).filter
                (fun k => k != categoryKeyOf r)).map
              (fun k =>
                (⟨k,
                  ⟨sumEmissions
                     ((r :: xs.filter
                         (fun x => scopeKeyOf x == scopeKeyOf r)).filter
                       (fun x => categoryKeyOf x == k)),
                   CO2KGS⟩⟩ : EmissionsByCategory)) := by
      simp only [getEmissionsByCategory, groupByKey_cons, List.map_cons,
        List.map_map]
      rfl
    refine ⟨_, _, hlist, rfl, ?_, _, _, hclist, rfl, ?_⟩
    · show sumEmissions (r :: xs.filter (fun x => scopeKeyOf x == scopeKeyOf r))
          = sumEmissions (xs.filter (fun x => scopeKeyOf x == scopeKeyOf r))
      rw [sumEmissions_cons, h0, zero_add]
    · show sumEmissions
          (r :: (xs.filter (fun x => scopeKeyOf x == scopeKeyOf r)).filter
            (fun x => categoryKeyOf x == categoryKeyOf r))
        = sumEmissions
            ((xs.filter (fun x => scopeKeyOf x == scopeKeyOf r)).filter
              (fun x => categoryKeyOf x == categoryKeyOf r))
      rw [sumEmissions_cons, h0, zero_add]

/-- Witness for C10 at concrete inputs: a lone record with `impacts` absent
yields the same total as the empty input (0) while still producing a scope
entry for its "unknown" scope key with an "unknown" category entry, both of
value 0 (the sums over the empty remainder). -/
theorem aggregateImpacts_zero_contribution_witness :
    (aggregateImpacts [⟨none, none⟩]).totalEmissions.value
      = (aggregateImpacts []).totalEmissions.value ∧
    ∃ e rest,
      (aggregateImpacts [⟨none, none⟩]).emissionsByScope = e :: rest ∧
      e.scope = scopeKeyOf ⟨none, none⟩ ∧
      e.emission.value
        = sumEmissions (([] : List CalculatedImpact).filter
            (fun x => scopeKeyOf x == scopeKeyOf ⟨none, none⟩)) ∧
      ∃ c crest, e.categoryBreakdown = c :: crest ∧
        c.category = categoryKeyOf ⟨none, none⟩ ∧
        c.emission.value
          = sumEmissions
              (((([] : List CalculatedImpact)).filter
                  (fun x => scopeKeyOf x == scopeKeyOf ⟨none, none⟩)).filter
                (fun x => categoryKeyOf x == categoryKeyOf ⟨none, none⟩)) :=
  aggregateImpacts_zero_contribution [] ⟨none, none⟩ (Or.inl rfl)

/-- C8: on the empty record list the aggregation returns total 0 and no
scope entries. -/
theorem aggregateImpacts_empty :
    (aggregateImpacts []).totalEmissions.value = 0 ∧
    (aggregateImpacts []).emissionsByScope = [] := by
  constructor <;> rfl

end AccountingServices
